import Mathlib

/-!
Verification development for the obsidian-data-fetcher query resolution
pipeline (`src/queryEngine.ts`, `src/cacheManager.ts`, `src/settings.ts`).

JavaScript runtime values flowing through the pipeline are modelled by the
inductive type `Json` below: a JS object is an ordered association list of
key/value pairs (insertion order preserved, keys unique when built through
`Json.objInsert`, which models JS property assignment / object-spread
semantics).  Numbers are modelled as integers: no claim under verification
touches fractional values, and the JSON texts occurring in concrete inputs
use integer numerals only.

Machine-level pieces (`JSON.stringify`, `JSON.parse`, the md5 digest used
by `generateCacheKey`) are implemented concretely so that every theorem
can be evaluated on explicit inputs by `decide`.
-/

/-- Model of a JavaScript/JSON runtime value.  `obj` keeps key insertion
order, exactly as JS objects do; `num` is restricted to integers. -/
inductive Json where
  | null : Json
  | bool : Bool → Json
  | num : Int → Json
  | str : String → Json
  | arr : List Json → Json
  | obj : List (String × Json) → Json
deriving BEq, Repr

/-- JS property assignment on the entry list of an object: an existing key
keeps its position and its value is replaced, a new key is appended. -/
def entriesInsert : List (String × Json) → String → Json → List (String × Json)
  | [], k, v => [(k, v)]
  | (k', v') :: rest, k, v =>
    if k' = k then (k', v) :: rest else (k', v') :: entriesInsert rest k v

namespace Json

/-- Property read `o[k]` on a JS value: only objects have own properties in
this model; a lookup on a non-object (or a missing key) is `undefined`,
rendered as `none`. -/
def getField : Json → String → Option Json
  | .obj kvs, k => kvs.lookup k
  | _, _ => none

/-- JS property assignment `o[k] = v`.  On a non-object the assignment is
dropped (the claims under verification only assign on objects). -/
def objInsert : Json → String → Json → Json
  | .obj kvs, k, v => .obj (entriesInsert kvs k v)
  | j, _, _ => j

/-- JS truthiness: `null`, `false`, `0`, and `""` are falsy. -/
def truthy : Json → Bool
  | .null => false
  | .bool b => b
  | .num n => n != 0
  | .str s => s ≠ ""
  | .arr _ => true
  | .obj _ => true

/-- Truthiness of a possibly-`undefined` value (`undefined` is falsy). -/
def truthyOpt : Option Json → Bool
  | none => false
  | some v => v.truthy

end Json

/-- JS `a || b` on a possibly-`undefined` left operand. -/
def jsOrElse (v : Option Json) (dflt : Json) : Json :=
  match v with
  | some x => if x.truthy then x else dflt
  | none => dflt

/-- Hex digit character (lowercase), for the md5 digest and string escapes. -/
def hexDigit (n : Nat) : Char :=
  if n < 10 then Char.ofNat (48 + n) else Char.ofNat (87 + n)

/-- JSON string escaping as performed by `JSON.stringify`. -/
def escapeChar (c : Char) : String :=
  if c = '"' then "\\\""
  else if c = '\\' then "\\\\"
  else if c = '\n' then "\\n"
  else if c = '\r' then "\\r"
  else if c = '\t' then "\\t"
  else if c.toNat = 8 then "\\b"
  else if c.toNat = 12 then "\\f"
  else if c.toNat < 32 then
    "\\u00" ++ String.mk [hexDigit (c.toNat / 16), hexDigit (c.toNat % 16)]
  else String.mk [c]

def escapeString (s : String) : String :=
  String.join (s.data.map escapeChar)

mutual

/-- Model of `JSON.stringify` on a defined value: key insertion order of
objects is preserved, `undefined` cannot occur inside a `Json` value. -/
def Json.stringify : Json → String
  | .null => "null"
  | .bool true => "true"
  | .bool false => "false"
  | .num n => toString n
  | .str s => "\"" ++ escapeString s ++ "\""
  | .arr xs => "[" ++ stringifyArr xs ++ "]"
  | .obj kvs => "\x7b" ++ stringifyObj kvs ++ "\x7d"

def stringifyArr : List Json → String
  | [] => ""
  | [x] => Json.stringify x
  | x :: y :: rest => Json.stringify x ++ "," ++ stringifyArr (y :: rest)

def stringifyObj : List (String × Json) → String
  | [] => ""
  | [(k, v)] => "\"" ++ escapeString k ++ "\":" ++ Json.stringify v
  | (k, v) :: p :: rest =>
      "\"" ++ escapeString k ++ "\":" ++ Json.stringify v ++ "," ++ stringifyObj (p :: rest)

end

/-! ### md5, as used by `crypto.createHash('md5')` in `generateCacheKey` -/

/-- UTF-8 encoding of one character, as a list of byte values. -/
def utf8EncodeChar (c : Char) : List Nat :=
  let n := c.toNat
  if n < 128 then [n]
  else if n < 2048 then [192 ||| (n >>> 6), 128 ||| (n &&& 63)]
  else if n < 65536 then
    [224 ||| (n >>> 12), 128 ||| ((n >>> 6) &&& 63), 128 ||| (n &&& 63)]
  else
    [240 ||| (n >>> 18), 128 ||| ((n >>> 12) &&& 63),
     128 ||| ((n >>> 6) &&& 63), 128 ||| (n &&& 63)]

def utf8Bytes (s : String) : List Nat :=
  s.data.flatMap utf8EncodeChar

/-- 2^32, the word modulus of md5 arithmetic. -/
def U32 : Nat := 4294967296

def not32 (x : Nat) : Nat := x ^^^ 4294967295

def rotl32 (x s : Nat) : Nat :=
  ((x <<< s) % U32) ||| ((x % U32) >>> (32 - s))

/-- The 64 md5 sine-derived constants. -/
def md5K : List Nat :=
  [0xd76aa478, 0xe8c7b756, 0x242070db, 0xc1bdceee,
   0xf57c0faf, 0x4787c62a, 0xa8304613, 0xfd469501,
   0x698098d8, 0x8b44f7af, 0xffff5bb1, 0x895cd7be,
   0x6b901122, 0xfd987193, 0xa679438e, 0x49b40821,
   0xf61e2562, 0xc040b340, 0x265e5a51, 0xe9b6c7aa,
   0xd62f105d, 0x02441453, 0xd8a1e681, 0xe7d3fbc8,
   0x21e1cde6, 0xc33707d6, 0xf4d50d87, 0x455a14ed,
   0xa9e3e905, 0xfcefa3f8, 0x676f02d9, 0x8d2a4c8a,
   0xfffa3942, 0x8771f681, 0x6d9d6122, 0xfde5380c,
   0xa4beea44, 0x4bdecfa9, 0xf6bb4b60, 0xbebfbc70,
   0x289b7ec6, 0xeaa127fa, 0xd4ef3085, 0x04881d05,
   0xd9d4d039, 0xe6db99e5, 0x1fa27cf8, 0xc4ac5665,
   0xf4292244, 0x432aff97, 0xab9423a7, 0xfc93a039,
   0x655b59c3, 0x8f0ccc92, 0xffeff47d, 0x85845dd1,
   0x6fa87e4f, 0xfe2ce6e0, 0xa3014314, 0x4e0811a1,
   0xf7537e82, 0xbd3af235, 0x2ad7d2bb, 0xeb86d391]

/-- The md5 per-round left-rotation amounts. -/
def md5S : List Nat :=
  [7, 12, 17, 22, 7, 12, 17, 22, 7, 12, 17, 22, 7, 12, 17, 22,
   5, 9, 14, 20, 5, 9, 14, 20, 5, 9, 14, 20, 5, 9, 14, 20,
   4, 11, 16, 23, 4, 11, 16, 23, 4, 11, 16, 23, 4, 11, 16, 23,
   6, 10, 15, 21, 6, 10, 15, 21, 6, 10, 15, 21, 6, 10, 15, 21]

structure MDState where
  a : Nat
  b : Nat
  c : Nat
  d : Nat
deriving Repr

def md5Round (M : List Nat) (st : MDState) (i : Nat) : MDState :=
  let fg : Nat × Nat :=
    if i < 16 then ((st.b &&& st.c) ||| (not32 st.b &&& st.d), i)
    else if i < 32 then ((st.d &&& st.b) ||| (not32 st.d &&& st.c), (5 * i + 1) % 16)
    else if i < 48 then (st.b ^^^ st.c ^^^ st.d, (3 * i + 5) % 16)
    else (st.c ^^^ (st.b ||| not32 st.d), (7 * i) % 16)
  let f := (fg.1 + st.a + md5K.getD i 0 + M.getD fg.2 0) % U32
  { a := st.d, d := st.c, c := st.b, b := (st.b + rotl32 f (md5S.getD i 0)) % U32 }

def md5Chunk (st : MDState) (M : List Nat) : MDState :=
  let r := (List.range 64).foldl (md5Round M) st
  { a := (st.a + r.a) % U32, b := (st.b + r.b) % U32,
    c := (st.c + r.c) % U32, d := (st.d + r.d) % U32 }

/-- Little-endian 32-bit words from a list of bytes. -/
def leWords : List Nat → List Nat
  | b0 :: b1 :: b2 :: b3 :: rest =>
      (b0 + 256 * (b1 + 256 * (b2 + 256 * b3))) :: leWords rest
  | _ => []

/-- Little-endian 8-byte encoding of the md5 bit-length field. -/
def le8 (n : Nat) : List Nat :=
  (List.range 8).map (fun i => (n >>> (8 * i)) &&& 255)

/-- md5 padding: 0x80, zeros to 56 mod 64, then the bit length. -/
def md5Pad (msg : List Nat) : List Nat :=
  let len := msg.length
  msg ++ [128] ++ List.replicate ((119 - len % 64) % 64) 0
      ++ le8 ((len * 8) % (2 ^ 64))

def chunksAux : Nat → List Nat → List (List Nat)
  | 0, _ => []
  | _, [] => []
  | fuel + 1, l => l.take 64 :: chunksAux fuel (l.drop 64)

def chunks64 (l : List Nat) : List (List Nat) := chunksAux l.length l

def md5Init : MDState :=
  { a := 0x67452301, b := 0xefcdab89, c := 0x98badcfe, d := 0x10325476 }

def byteHex (b : Nat) : String :=
  String.mk [hexDigit (b / 16 % 16), hexDigit (b % 16)]

def wordLEHex (w : Nat) : String :=
  byteHex (w &&& 255) ++ byteHex ((w >>> 8) &&& 255)
    ++ byteHex ((w >>> 16) &&& 255) ++ byteHex ((w >>> 24) &&& 255)

def md5Hex (msg : List Nat) : String :=
  let st := (chunks64 (md5Pad msg)).foldl (fun s c => md5Chunk s (leWords c)) md5Init
  wordLEHex st.a ++ wordLEHex st.b ++ wordLEHex st.c ++ wordLEHex st.d

/-- Model of `crypto.createHash('md5').update(s).digest('hex')`. -/
def md5OfString (s : String) : String := md5Hex (utf8Bytes s)

/-! ### `generateCacheKey` (`src/cacheManager.ts`, lines 34-46) -/

/-- The entries of the object literal serialized by `generateCacheKey`:
fixed key order `url, type, method, body, query, variables`; a field whose
value is `undefined` is omitted by `JSON.stringify`, exactly as in JS. -/
def cacheKeyEntries (params : Json) : List (String × Json) :=
  [("url", params.getField "url"), ("type", params.getField "type"),
   ("method", params.getField "method"), ("body", params.getField "body"),
   ("query", params.getField "query"), ("variables", params.getField "variables")
  ].filterMap (fun kv => kv.2.map (fun v => (kv.1, v)))

/-- The `stringToHash` local of `generateCacheKey`. -/
def stringToHash (params : Json) : String :=
  (Json.obj (cacheKeyEntries params)).stringify

/-- Model of `CacheManager.generateCacheKey`: md5 hex digest of the fixed-field
serialization.  Headers and the endpoint reference are not read. -/
def generateCacheKey (params : Json) : String :=
  md5OfString (stringToHash params)

/-! ### `JSON.parse`, modelled for the integer-numeral JSON subset

A fuel-driven recursive-descent parser.  It accepts the standard JSON
grammar except that numeric literals are restricted to (optionally signed)
integers — no claim under verification involves fractional numbers.
Duplicate object keys follow JS semantics (last occurrence wins in place).
The error message is a single generic token-error string; the code never
branches on the text of a `JSON.parse` error. -/

def isJsonWs (c : Char) : Bool :=
  c = ' ' || c = '\t' || c = '\n' || c = '\r'

def skipWs : List Char → List Char
  | c :: rest => if isJsonWs c then skipWs rest else c :: rest
  | [] => []

def lbrace : Char := Char.ofNat 123
def rbrace : Char := Char.ofNat 125

def hexVal (c : Char) : Option Nat :=
  if '0' ≤ c ∧ c ≤ '9' then some (c.toNat - 48)
  else if 'a' ≤ c ∧ c ≤ 'f' then some (c.toNat - 87)
  else if 'A' ≤ c ∧ c ≤ 'F' then some (c.toNat - 55)
  else none

/-- Parse the remainder of a JSON string literal (opening quote already
consumed). -/
def parseJsonStr : Nat → List Char → Option (String × List Char)
  | 0, _ => none
  | fuel + 1, input =>
    match input with
    | [] => none
    | c :: rest =>
      if c = '"' then some ("", rest)
      else if c = '\\' then
        match rest with
        | [] => none
        | e :: rest2 =>
          let dec : Option (Char × List Char) :=
            if e = '"' then some ('"', rest2)
            else if e = '\\' then some ('\\', rest2)
            else if e = '/' then some ('/', rest2)
            else if e = 'n' then some ('\n', rest2)
            else if e = 't' then some ('\t', rest2)
            else if e = 'r' then some ('\r', rest2)
            else if e = 'b' then some (Char.ofNat 8, rest2)
            else if e = 'f' then some (Char.ofNat 12, rest2)
            else if e = 'u' then
              match rest2 with
              | h1 :: h2 :: h3 :: h4 :: rest3 =>
                match hexVal h1, hexVal h2, hexVal h3, hexVal h4 with
                | some a, some b, some c, some d =>
                  some (Char.ofNat (4096 * a + 256 * b + 16 * c + d), rest3)
                | _, _, _, _ => none
              | _ => none
            else none
          match dec with
          | some (ch, r) =>
            match parseJsonStr fuel r with
            | some (s, r2) => some (String.mk (ch :: s.data), r2)
            | none => none
          | none => none
      else
        match parseJsonStr fuel rest with
        | some (s, r2) => some (String.mk (c :: s.data), r2)
        | none => none

def parseDigits : List Char → Option (Nat × List Char)
  | input =>
    let digits := input.takeWhile Char.isDigit
    if digits = [] then none
    else some (digits.foldl (fun acc c => 10 * acc + (c.toNat - 48)) 0,
               input.dropWhile Char.isDigit)

mutual

def parseJsonVal : Nat → List Char → Option (Json × List Char)
  | 0, _ => none
  | fuel + 1, input =>
    match skipWs input with
    | [] => none
    | c :: rest =>
      if c = 'n' then
        match rest with
        | 'u' :: 'l' :: 'l' :: r => some (Json.null, r)
        | _ => none
      else if c = 't' then
        match rest with
        | 'r' :: 'u' :: 'e' :: r => some (Json.bool true, r)
        | _ => none
      else if c = 'f' then
        match rest with
        | 'a' :: 'l' :: 's' :: 'e' :: r => some (Json.bool false, r)
        | _ => none
      else if c = '"' then
        match parseJsonStr fuel rest with
        | some (s, r) => some (Json.str s, r)
        | none => none
      else if c = '[' then
        parseJsonArr fuel (skipWs rest) true []
      else if c = lbrace then
        parseJsonObj fuel (skipWs rest) true []
      else if c = '-' then
        match parseDigits rest with
        | some (n, r) => some (Json.num (-(n : Int)), r)
        | none => none
      else if c.isDigit then
        match parseDigits (c :: rest) with
        | some (n, r) => some (Json.num (n : Int), r)
        | none => none
      else none

/-- Array elements after `[`; `first` is true before any element. -/
def parseJsonArr : Nat → List Char → Bool → List Json → Option (Json × List Char)
  | 0, _, _, _ => none
  | fuel + 1, input, first, acc =>
    match input with
    | c :: rest =>
      if c = ']' ∧ first then some (Json.arr [], rest)
      else
        match parseJsonVal fuel input with
        | some (v, r) =>
          match skipWs r with
          | ',' :: r2 => parseJsonArr fuel (skipWs r2) false (acc ++ [v])
          | c2 :: r2 =>
            if c2 = ']' then some (Json.arr (acc ++ [v]), r2) else none
          | [] => none
        | none => none
    | [] => none

/-- Object members after the opening brace; duplicate keys collapse in
place with the last value, as `JSON.parse` does. -/
def parseJsonObj : Nat → List Char → Bool → List (String × Json) →
    Option (Json × List Char)
  | 0, _, _, _ => none
  | fuel + 1, input, first, acc =>
    match input with
    | c :: rest =>
      if c = rbrace ∧ first then some (Json.obj [], rest)
      else if c = '"' then
        match parseJsonStr fuel rest with
        | some (k, r) =>
          match skipWs r with
          | ':' :: r2 =>
            match parseJsonVal fuel r2 with
            | some (v, r3) =>
              let acc2 := entriesInsert acc k v
              match skipWs r3 with
              | ',' :: r4 => parseJsonObj fuel (skipWs r4) false acc2
              | c2 :: r4 =>
                if c2 = rbrace then some (Json.obj acc2, r4) else none
              | [] => none
            | none => none
          | _ => none
        | none => none
      else none
    | [] => none

end

/-- Model of `JSON.parse`.  The error text stands in for the various
`SyntaxError` messages of the JS engine; no caller inspects it. -/
def jsonParse (s : String) : Except String Json :=
  match parseJsonVal (s.length + 2) s.data with
  | some (v, rest) =>
    if skipWs rest = [] then .ok v else .error "Unexpected token in JSON"
  | none => .error "Unexpected token in JSON"

/-! ### Settings (`src/settings.ts`) -/

/-- Model of `EndpointConfig`.  The source field `alias` is spelled `aliasName` here
because `alias` is reserved in this development.  `type` is kept as a raw string: the parser copies it
into the descriptor unvalidated, and direct-mode descriptors can carry any
string there. -/
structure EndpointConfig where
  aliasName : String
  url : String
  method : String
  type : String
  headers : List (String × String)
  body : Option String := none
  query : Option String := none

structure DataFetcherSettings where
  cacheDuration : Int
  endpoints : List EndpointConfig

/-! ### `parseDataQuery` (`src/queryEngine.ts`, lines 24-118)

A parsed descriptor is the JS object the function returns, modelled as a
`Json.obj` with insertion order preserved. -/

/-- The endpoint's headers object, spread into a fresh object by
`{ ...endpoint.headers }`. -/
def headersToJson (hs : List (String × String)) : Json :=
  Json.obj (hs.map (fun kv => (kv.1, Json.str kv.2)))

/-! String processing for reference mode is modelled on character lists
(`String.data`) with structural recursion, mirroring `trim`,
`split('\n')`, `split(':')`, `includes(':')`, `join(':')` and
`substring(1)` of the JS source.  Whitespace is the ASCII whitespace
set. -/

def isJsWsChar (c : Char) : Bool :=
  c = ' ' || c = '\t' || c = '\n' || c = '\r' || c.toNat = 11 || c.toNat = 12

/-- Model of `String.prototype.trim`. -/
def jsTrim (l : List Char) : List Char :=
  ((l.dropWhile isJsWsChar).reverse.dropWhile isJsWsChar).reverse

/-- Model of `String.prototype.split` with a one-character separator: empty pieces
are kept, exactly as in JS. -/
def splitOnChar (sep : Char) : List Char → List (List Char)
  | [] => [[]]
  | c :: rest =>
    if c = sep then [] :: splitOnChar sep rest
    else
      match splitOnChar sep rest with
      | [] => [[c]]
      | g :: gs => (c :: g) :: gs

/-- Model of `Array.prototype.join` with a one-character separator. -/
def intercalateChar (sep : Char) : List (List Char) → List Char
  | [] => []
  | [g] => g
  | g :: g2 :: gs => g ++ sep :: intercalateChar sep (g2 :: gs)

/-- The trimmed line list of a reference-mode block:
`source.trim().split('\n')`. -/
def refLines (source : String) : List (List Char) :=
  splitOnChar '\n' (jsTrim source.data)

/-- The alias of a reference-mode block: first line, trimmed, without the
leading `@`. -/
def refAlias (source : String) : String :=
  String.mk ((jsTrim ((refLines source).headD [])).drop 1)

/-- Model of `source.trim().startsWith('@')`. -/
def refStarts (source : String) : Bool :=
  match jsTrim source.data with
  | c :: _ => c = '@'
  | [] => false

/-- The `key` of a `key: value` line (`line.split(':')[0].trim()`). -/
def lineKey (l : List Char) : String :=
  String.mk (jsTrim ((splitOnChar ':' (jsTrim l)).headD []))

/-- The raw `value` of a `key: value` line
(`valueParts.join(':').trim()`). -/
def lineValue (l : List Char) : String :=
  String.mk (jsTrim (intercalateChar ':' ((splitOnChar ':' (jsTrim l)).tail)))

/-- The `body` / `query` / `variables` assignment performed for one
`key: value` line of a reference-mode block (`queryEngine.ts` lines
74-88).  Any other key falls through with no effect. -/
def handleAssignment (key value : String) (q : Json) : Except String Json :=
  if key = "body" then
    .ok (q.objInsert "body"
      (match jsonParse value with
       | .ok v => v
       | .error _ => Json.str value))
  else if key = "query" then
    .ok (q.objInsert "query" (Json.str value))
  else if key = "variables" then
    match jsonParse value with
    | .ok v => .ok (q.objInsert "variables" v)
    | .error _ => .error "Variables must be valid JSON"
  else .ok q

/-- The inner multi-line-query loop (`queryEngine.ts` lines 63-71): absorb
trimmed lines that are non-empty and colon-free, skip empty lines, stop at
the first line containing a colon.  Returns the accumulated value and the
final value of the outer index `i`. -/
def collectQuery (lines : List (List Char)) : Nat → Nat → String → Nat → String × Nat
  | 0, _, value, iAcc => (value, iAcc)
  | fuel + 1, j, value, iAcc =>
    match lines.get? j with
    | none => (value, iAcc)
    | some l =>
      if jsTrim l ≠ [] ∧ ¬ (jsTrim l).contains ':' then
        collectQuery lines fuel (j + 1) (value ++ "\n" ++ String.mk (jsTrim l)) j
      else if (jsTrim l).contains ':' then (value, iAcc)
      else collectQuery lines fuel (j + 1) value iAcc

/-- The outer parameter loop of reference mode (`queryEngine.ts` lines
49-90), driven by fuel (one unit per processed line; the initial fuel
`lines.length + 1` always suffices because the index strictly grows). -/
def processLines (lines : List (List Char)) : Nat → Nat → Json → Except String Json
  | 0, _, q => .ok q
  | fuel + 1, i, q =>
    match lines.get? i with
    | none => .ok q
    | some l =>
      if jsTrim l = [] then processLines lines fuel (i + 1) q
      else if (jsTrim l).contains ':' then
        if lineKey l = "query" ∧ i + 1 < lines.length then
          match handleAssignment (lineKey l)
              (collectQuery lines (lines.length + 1) (i + 1) (lineValue l) i).1 q with
          | .ok q2 => processLines lines fuel
              ((collectQuery lines (lines.length + 1) (i + 1) (lineValue l) i).2 + 1) q2
          | .error e => .error e
        else
          match handleAssignment (lineKey l) (lineValue l) q with
          | .ok q2 => processLines lines fuel (i + 1) q2
          | .error e => .error e
      else processLines lines fuel (i + 1) q

/-- Reference mode (`queryEngine.ts` lines 27-92). -/
def parseReference (source : String) (settings : DataFetcherSettings) :
    Except String Json :=
  match settings.endpoints.find? (fun e => e.aliasName == refAlias source) with
  | none =>
    .error ("Endpoint alias \"" ++ refAlias source ++ "\" not found in settings")
  | some ep =>
    processLines (refLines source) ((refLines source).length + 1) 1
      (Json.obj
        [("endpoint", Json.str (refAlias source)), ("type", Json.str ep.type),
         ("url", Json.str ep.url), ("method", Json.str ep.method),
         ("headers", headersToJson ep.headers)])

def cannotReadNull (prop : String) : String :=
  "Cannot read properties of null (reading " ++ prop ++ ")"

/-- Property access `v.prop` as an effect: reading a property of `null`
throws a `TypeError`, reading a missing property yields `undefined`. -/
def jsGetProp (v : Json) (prop : String) : Except String (Option Json) :=
  match v with
  | .null => .error (cannotReadNull prop)
  | _ => .ok (v.getField prop)

/-- The own enumerable entries contributed by `...v` in an object literal:
objects contribute their entries, arrays and strings their indexed
elements, primitives nothing. -/
def jsSpreadEntries : Json → List (String × Json)
  | .obj kvs => kvs
  | .arr xs => (xs.enum).map (fun iv => (toString iv.1, iv.2))
  | .str s => (s.data.enum).map (fun ic => (toString ic.1, Json.str (String.mk [ic.2])))
  | _ => []

/-- Object literal `{ base..., ...v }`: the base entries first, then the
spread entries applied with JS assignment semantics. -/
def jsSpread (base : List (String × Json)) (v : Json) : Json :=
  (jsSpreadEntries v).foldl (fun acc kv => acc.objInsert kv.1 kv.2) (Json.obj base)

/-- Direct mode (`queryEngine.ts` lines 94-113), the inner try/catch
included: its own throws and the two validation throws are re-wrapped with
`Invalid query format: `. -/
def parseDirect (source : String) : Except String Json :=
  match jsonParse source with
  | .error m => .error ("Invalid query format: " ++ m)
  | .ok v =>
    match jsGetProp v "type" with
    | .error m => .error ("Invalid query format: " ++ m)
    | .ok t =>
      if ¬ Json.truthyOpt t then
        .error "Invalid query format: Query type is required"
      else
        match jsGetProp v "url" with
        | .error m => .error ("Invalid query format: " ++ m)
        | .ok u =>
          if ¬ Json.truthyOpt u then
            .error "Invalid query format: URL is required"
          else .ok (jsSpread [("endpoint", Json.str "direct")] v)

/-- Model of `parseDataQuery`: reference mode when the trimmed source starts with
`@`, direct mode otherwise; every failure is wrapped once more by the
outer catch with `Failed to parse query: `. -/
def parseDataQuery (source : String) (settings : DataFetcherSettings) :
    Except String Json :=
  match
    (if refStarts source
     then parseReference source settings
     else parseDirect source) with
  | .ok q => .ok q
  | .error m => .error ("Failed to parse query: " ++ m)

/-! ### `QueryResult` and the cache store (`src/cacheManager.ts`) -/

/-- Model of `QueryResult`: `data` is `Json.null` on failure, `error` present iff a
failure was caught.  The persisted snapshot round-trips through
`JSON.stringify`/`JSON.parse` unchanged for values of this shape. -/
structure QueryResult where
  data : Json
  timestamp : Int
  error : Option String := none

/-- One persisted cache file as seen by `getFromCache`: a well-formed
snapshot, a file whose content `JSON.parse` rejects, or a file
`vault.read` fails on.  The latter two model the storage boundary
(`CacheError`s thrown by the vault adapter). -/
inductive CacheFile where
  | valid : QueryResult → CacheFile
  | corrupt : CacheFile
  | unreadable : CacheFile

/-- The vault as the cache manager sees it: whether the cache folder
exists, and the files keyed by path. -/
structure CacheState where
  folderExists : Bool
  files : List (String × CacheFile)

def cacheFolder : String := ".data-fetcher-cache"

/-- The file path `generateCacheKey` maps a descriptor to. -/
def cachePath (params : Json) : String :=
  cacheFolder ++ "/" ++ generateCacheKey params ++ ".json"

/-- Model of `ensureCacheFolder`: create the folder if missing; idempotent. -/
def ensureCacheFolder (st : CacheState) : CacheState :=
  { st with folderExists := true }

def lookupFile (files : List (String × CacheFile)) (p : String) : Option CacheFile :=
  files.lookup p

/-- Model of `adapter.write`: overwrite an existing file or create a new one. -/
def setFile : List (String × CacheFile) → String → CacheFile → List (String × CacheFile)
  | [], p, f => [(p, f)]
  | (p', f') :: rest, p, f =>
    if p' = p then (p', f) :: rest else (p', f') :: setFile rest p f

/-- Model of `getFromCache` (`cacheManager.ts` lines 51-80): pure read returning
the cached result or `null`; the vault state is returned unchanged to
express the read-only frame.  A missing file, a corrupt file, an
unreadable file and an expired entry all produce `null` (the `catch`
swallows the thrown cases); expiry is `now - timestamp >
cacheDuration * 60 * 1000`, strict. -/
def getFromCache (st : CacheState) (cacheDuration : Int) (now : Int)
    (params : Json) : Option QueryResult × CacheState :=
  match lookupFile st.files (cachePath params) with
  | none => (none, st)
  | some .corrupt => (none, st)
  | some .unreadable => (none, st)
  | some (.valid r) =>
    if now - r.timestamp > cacheDuration * 60 * 1000 then (none, st)
    else (some r, st)

/-- Model of `saveToCache` (`cacheManager.ts` lines 85-96): ensure the folder, then
write/overwrite the snapshot at the descriptor's cache path. -/
def saveToCache (st : CacheState) (params : Json) (result : QueryResult) :
    CacheState :=
  let st1 := ensureCacheFolder st
  { st1 with files := setFile st1.files (cachePath params) (.valid result) }

/-- Structural character-list prefix test (first argument is the
prefix). -/
def startsWithChars : List Char → List Char → Bool
  | [], _ => true
  | _ :: _, [] => false
  | a :: as, b :: bs => a = b && startsWithChars as bs

/-- A path the adapter's `list` of the cache folder reports. -/
def isCachePath (p : String) : Bool :=
  startsWithChars (cacheFolder ++ "/").data p.data

def listFiles (st : CacheState) : List String :=
  (st.files.map Prod.fst).filter isCachePath

/-- The per-path body of the `clearAllCache` deletion loop. -/
def clearStep (removeFails : String → Bool) (acc : CacheState × Nat)
    (p : String) : CacheState × Nat :=
  if removeFails p then acc
  else ({ acc.1 with files := acc.1.files.filter (fun e => e.1 != p) }, acc.2 + 1)

/-- The body of `clearAllCache` (`cacheManager.ts` lines 101-124): ensure
the folder, list it, remove each listed file, counting successes into the
local `deletedCount`; `removeFails` marks the files whose individual
`adapter.remove` throws (that failure is caught per-file, so later
deletions still run).  The `Nat` is the local counter, not anything the
function returns. -/
def clearAllLoop (removeFails : String → Bool) (st : CacheState) :
    CacheState × Nat :=
  (listFiles (ensureCacheFolder st)).foldl (clearStep removeFails)
    (ensureCacheFolder st, 0)

/-- Model of `clearAllCache` as the caller observes it: the updated vault,
the `console.log` line `Cleared N cache files` carrying the local
`deletedCount`, and the value handed back to the caller — the TS
signature is `async clearAllCache(): Promise<void>`, so that value is
`Unit`: the deletion count never reaches the caller except through the
log. -/
def clearAllCache (removeFails : String → Bool) (st : CacheState) :
    CacheState × String × Unit :=
  ((clearAllLoop removeFails st).1,
   "Cleared " ++ toString (clearAllLoop removeFails st).2 ++ " cache files",
   ())

/-! ### Protocol executors and the dispatcher (`src/queryEngine.ts`) -/

/-- The argument object handed to Obsidian's `requestUrl` transport
primitive.  `url` and `method` keep their dynamic JS type; `body`, when
present, is the (already serialized or raw) request body. -/
structure RequestUrlParam where
  url : Json
  method : Json
  headers : List (String × Json)
  body : Option Json := none

/-- A transport response: `jsonBody` models the `response.json` accessor
(which throws when the body is not JSON), `textBody` the `response.text`
accessor. -/
structure Response where
  status : Int := 200
  headers : List (String × String)
  jsonBody : Except String Json
  textBody : String := ""

/-- Model of `String.prototype.includes`. -/
def jsIncludes (s sub : String) : Bool :=
  sub == "" || (s.splitOn sub).length > 1

/-- Is `typeof v === 'object'` for a truthy `v`? -/
def Json.isObjLike : Json → Bool
  | .obj _ => true
  | .arr _ => true
  | _ => false

/-- The spread `{'Content-Type': 'application/json', ...(params.headers ||
{})}` shared by the GraphQL, gRPC and RPC executors. -/
def ctThenHeaders (params : Json) : List (String × Json) :=
  (jsSpreadEntries (jsOrElse (params.getField "headers") (Json.obj []))).foldl
    (fun acc kv => entriesInsert acc kv.1 kv.2)
    [("Content-Type", Json.str "application/json")]

/-- The `requestParams` object built by `executeRestQuery` (lines
166-185): caller headers pass through; a truthy structured body is
serialized and `Content-Type: application/json` is added only when the
existing `Content-Type` value is falsy or absent. -/
def restRequestParams (params : Json) : RequestUrlParam :=
  let base : RequestUrlParam :=
    { url := (params.getField "url").getD Json.null,
      method := jsOrElse (params.getField "method") (Json.str "GET"),
      headers := jsSpreadEntries (jsOrElse (params.getField "headers") (Json.obj [])) }
  match params.getField "body" with
  | some b =>
    if b.truthy then
      if b.isObjLike then
        { base with
          body := some (Json.str b.stringify),
          headers :=
            if Json.truthyOpt (base.headers.lookup "Content-Type") then base.headers
            else entriesInsert base.headers "Content-Type" (Json.str "application/json") }
      else { base with body := some b }
    else base
  | none => base

/-- Model of `executeRestQuery` (lines 161-197). -/
def executeRestQuery (transport : RequestUrlParam → Except String Response)
    (params : Json) : Except String Json :=
  if ¬ Json.truthyOpt (params.getField "url") then
    .error "URL is required for REST queries"
  else
    match transport (restRequestParams params) with
    | .error m => .error m
    | .ok resp =>
      match resp.headers.lookup "content-type" with
      | some ct =>
        if ct ≠ "" ∧ jsIncludes ct "application/json" then resp.jsonBody
        else .ok (Json.str resp.textBody)
      | none => .ok (Json.str resp.textBody)

/-- The `requestParams` object built by `executeGraphQLQuery` (lines
211-222): fixed POST, injected `Content-Type` overridable by caller
headers, body `{query, variables: variables || {}}` serialized. -/
def graphQLRequestParams (params : Json) : RequestUrlParam :=
  { url := (params.getField "url").getD Json.null,
    method := Json.str "POST",
    headers := ctThenHeaders params,
    body := some (Json.str (Json.stringify (Json.obj
      [("query", (params.getField "query").getD Json.null),
       ("variables", jsOrElse (params.getField "variables") (Json.obj []))]))) }

/-- Model of `executeGraphQLQuery` (lines 202-226). -/
def executeGraphQLQuery (transport : RequestUrlParam → Except String Response)
    (params : Json) : Except String Json :=
  if ¬ Json.truthyOpt (params.getField "url") then
    .error "URL is required for GraphQL queries"
  else if ¬ Json.truthyOpt (params.getField "query") then
    .error "Query is required for GraphQL queries"
  else
    match transport (graphQLRequestParams params) with
    | .error m => .error m
    | .ok resp => resp.jsonBody

/-- The `requestParams` object built by `executeGrpcQuery` (lines
240-248): REST-proxy convention, `body || {}` serialized directly. -/
def grpcRequestParams (params : Json) : RequestUrlParam :=
  { url := (params.getField "url").getD Json.null,
    method := Json.str "POST",
    headers := ctThenHeaders params,
    body := some (Json.str (Json.stringify
      (jsOrElse (params.getField "body") (Json.obj [])))) }

/-- Model of `executeGrpcQuery` (lines 233-252). -/
def executeGrpcQuery (transport : RequestUrlParam → Except String Response)
    (params : Json) : Except String Json :=
  if ¬ Json.truthyOpt (params.getField "url") then
    .error "URL is required for gRPC queries"
  else
    match transport (grpcRequestParams params) with
    | .error m => .error m
    | .ok resp => resp.jsonBody

/-- The `requestParams` object built by `executeRpcQuery` (lines 262-275):
JSON-RPC 2.0 envelope. -/
def rpcRequestParams (params : Json) : RequestUrlParam :=
  { url := (params.getField "url").getD Json.null,
    method := jsOrElse (params.getField "method") (Json.str "POST"),
    headers := ctThenHeaders params,
    body := some (Json.str (Json.stringify (Json.obj
      [("jsonrpc", Json.str "2.0"),
       ("method", jsOrElse (params.getField "query") (Json.str "method")),
       ("params", jsOrElse (params.getField "body") (Json.obj [])),
       ("id", Json.num 1)]))) }

/-- Model of `executeRpcQuery` (lines 257-279). -/
def executeRpcQuery (transport : RequestUrlParam → Except String Response)
    (params : Json) : Except String Json :=
  if ¬ Json.truthyOpt (params.getField "url") then
    .error "URL is required for RPC queries"
  else
    match transport (rpcRequestParams params) with
    | .error m => .error m
    | .ok resp => resp.jsonBody

mutual

/-- JS string coercion (template literal), for the dispatcher's
`Unsupported query type` message. -/
def Json.jsToString : Json → String
  | .null => "null"
  | .bool true => "true"
  | .bool false => "false"
  | .num n => toString n
  | .str s => s
  | .arr xs => jsArrToString xs
  | .obj _ => "[object Object]"

def jsArrToString : List Json → String
  | [] => ""
  | [x] => jsArrElem x
  | x :: y :: rest => jsArrElem x ++ "," ++ jsArrToString (y :: rest)

def jsArrElem : Json → String
  | .null => ""
  | v => Json.jsToString v

end

def jsToStringOpt : Option Json → String
  | none => "undefined"
  | some v => v.jsToString

/-- Model of `executeQuery` (lines 123-156): dispatch on `params.type`, catch every
failure into a Result with `data: null` and the failure message, stamp the
completion time. -/
def executeQuery (transport : RequestUrlParam → Except String Response)
    (now : Int) (params : Json) : QueryResult :=
  let dispatched : Except String Json :=
    match params.getField "type" with
    | some (Json.str "rest") => executeRestQuery transport params
    | some (Json.str "graphql") => executeGraphQLQuery transport params
    | some (Json.str "grpc") => executeGrpcQuery transport params
    | some (Json.str "rpc") => executeRpcQuery transport params
    | t => .error ("Unsupported query type: " ++ jsToStringOpt t)
  match dispatched with
  | .ok data => { data := data, timestamp := now, error := none }
  | .error m => { data := Json.null, timestamp := now, error := some m }

/-! ### Canonical form: logical equality of JS values up to object-key order -/

def Json.isNull : Json → Bool
  | .null => true
  | _ => false

/-- Total byte-wise comparison on strings, used to sort object keys. -/
def charsLe : List Char → List Char → Bool
  | [], _ => true
  | _ :: _, [] => false
  | a :: as, b :: bs =>
    if a.toNat < b.toNat then true
    else if b.toNat < a.toNat then false
    else charsLe as bs

def strLeB (a b : String) : Bool := charsLe a.data b.data

def insertEntry (kv : String × Json) : List (String × Json) → List (String × Json)
  | [] => [kv]
  | kv' :: rest =>
    if strLeB kv.1 kv'.1 then kv :: kv' :: rest else kv' :: insertEntry kv rest

def sortEntries : List (String × Json) → List (String × Json)
  | [] => []
  | kv :: rest => insertEntry kv (sortEntries rest)

mutual

/-- Canonical form of a JS value: object keys recursively sorted.  Two
values are logically equal — same mapping from keys to values at every
depth, irrespective of key insertion order — exactly when their canonical
forms coincide. -/
def Json.canon : Json → Json
  | .null => .null
  | .bool b => .bool b
  | .num n => .num n
  | .str s => .str s
  | .arr xs => .arr (canonList xs)
  | .obj kvs => .obj (sortEntries (canonEntries kvs))

def canonList : List Json → List Json
  | [] => []
  | x :: xs => x.canon :: canonList xs

def canonEntries : List (String × Json) → List (String × Json)
  | [] => []
  | (k, v) :: rest => (k, v.canon) :: canonEntries rest

end

/-! ## Shared lemmas -/

theorem lookup_setFile (fs : List (String × CacheFile)) (p : String) (f : CacheFile) :
    lookupFile (setFile fs p f) p = some f := by
  induction fs with
  | nil => simp [setFile, lookupFile, List.lookup]
  | cons e rest ih =>
    obtain ⟨p', f'⟩ := e
    by_cases h : p' = p
    · subst h; simp [setFile, lookupFile, List.lookup]
    · have hb : (p == p') = false := beq_false_of_ne (Ne.symm h)
      simp only [setFile, if_neg h, lookupFile, List.lookup, hb]
      exact ih

theorem lookup_entriesInsert_self (kvs : List (String × Json)) (k : String) (v : Json) :
    (entriesInsert kvs k v).lookup k = some v := by
  induction kvs with
  | nil => simp [entriesInsert, List.lookup]
  | cons e rest ih =>
    obtain ⟨k', v'⟩ := e
    by_cases h : k' = k
    · subst h; simp [entriesInsert, List.lookup]
    · have hb : (k == k') = false := beq_false_of_ne (Ne.symm h)
      simp only [entriesInsert, if_neg h, List.lookup, hb]
      exact ih

theorem lookup_entriesInsert_ne (kvs : List (String × Json)) (k k' : String) (v : Json)
    (h : k' ≠ k) : (entriesInsert kvs k v).lookup k' = kvs.lookup k' := by
  have hb : (k' == k) = false := beq_false_of_ne h
  induction kvs with
  | nil => simp [entriesInsert, List.lookup, hb]
  | cons e rest ih =>
    obtain ⟨k0, v0⟩ := e
    by_cases h0 : k0 = k
    · subst h0; simp [entriesInsert, List.lookup, hb]
    · simp only [entriesInsert, if_neg h0]
      by_cases h1 : k0 = k'
      · subst h1; simp [List.lookup]
      · have hb1 : (k' == k0) = false := beq_false_of_ne (Ne.symm h1)
        simp only [List.lookup, hb1]
        exact ih

theorem getField_objInsert_ne (q : Json) (k k' : String) (v : Json) (h : k' ≠ k) :
    (q.objInsert k v).getField k' = q.getField k' := by
  cases q <;> simp [Json.objInsert, Json.getField]
  exact lookup_entriesInsert_ne _ _ _ _ h

theorem getField_objInsert_self (kvs : List (String × Json)) (k : String) (v : Json) :
    ((Json.obj kvs).objInsert k v).getField k = some v := by
  simp [Json.objInsert, Json.getField, lookup_entriesInsert_self]

theorem lookup_foldl_entriesInsert_not_mem (hs : List (String × Json))
    (base : List (String × Json)) (k : String) (hk : k ∉ hs.map Prod.fst) :
    ((hs.foldl (fun acc kv => entriesInsert acc kv.1 kv.2) base).lookup k)
      = base.lookup k := by
  induction hs generalizing base with
  | nil => rfl
  | cons e rest ih =>
    obtain ⟨k0, v0⟩ := e
    simp only [List.map_cons, List.mem_cons] at hk
    push_neg at hk
    simp only [List.foldl_cons]
    rw [ih _ hk.2, lookup_entriesInsert_ne _ _ _ _ hk.1]

theorem lookup_foldl_entriesInsert (hs : List (String × Json))
    (base : List (String × Json)) (k : String) (v : Json)
    (hnd : (hs.map Prod.fst).Nodup) (hkv : hs.lookup k = some v) :
    ((hs.foldl (fun acc kv => entriesInsert acc kv.1 kv.2) base).lookup k)
      = some v := by
  induction hs generalizing base with
  | nil => simp [List.lookup] at hkv
  | cons e rest ih =>
    obtain ⟨k0, v0⟩ := e
    simp only [List.map_cons, List.nodup_cons] at hnd
    simp only [List.foldl_cons]
    by_cases h : k0 = k
    · subst h
      simp [List.lookup] at hkv
      subst hkv
      rw [lookup_foldl_entriesInsert_not_mem _ _ _ hnd.1,
        lookup_entriesInsert_self]
    · have hb : (k == k0) = false := beq_false_of_ne (Ne.symm h)
      simp only [List.lookup, hb] at hkv
      exact ih _ hnd.2 hkv

/-! ## C3: store-then-lookup round trip with expiry window -/

/-- C3: after `saveToCache`, a `getFromCache` whose `now` is within the
expiry window (`now - timestamp ≤ cacheDuration * 60000`) returns exactly
the stored result, and a lookup strictly past the window returns `none`. -/
theorem saveToCache_getFromCache_window (st : CacheState) (params : Json)
    (r : QueryResult) (dur now : Int) :
    (now - r.timestamp ≤ dur * 60 * 1000 →
      (getFromCache (saveToCache st params r) dur now params).1 = some r) ∧
    (now - r.timestamp > dur * 60 * 1000 →
      (getFromCache (saveToCache st params r) dur now params).1 = none) := by
  have hl : lookupFile (saveToCache st params r).files (cachePath params)
      = some (.valid r) := by
    simp only [saveToCache, ensureCacheFolder]
    exact lookup_setFile _ _ _
  constructor
  · intro h
    simp [getFromCache, hl, not_lt.mpr h]
  · intro h
    simp [getFromCache, hl, h]

/-- C3 witness: a result stamped at time 0 looked up 61 minutes later is a
miss under a 60-minute duration and a hit (same entry) under 120. -/
theorem saveToCache_getFromCache_window_witness :
    (getFromCache
      (saveToCache ⟨false, []⟩ (Json.obj [("url", Json.str "u"), ("type", Json.str "rest")])
        ⟨Json.num 1, 0, none⟩)
      60 3660000 (Json.obj [("url", Json.str "u"), ("type", Json.str "rest")])).1 = none ∧
    (getFromCache
      (saveToCache ⟨false, []⟩ (Json.obj [("url", Json.str "u"), ("type", Json.str "rest")])
        ⟨Json.num 1, 0, none⟩)
      120 3660000 (Json.obj [("url", Json.str "u"), ("type", Json.str "rest")])).1
      = some ⟨Json.num 1, 0, none⟩ :=
  ⟨(saveToCache_getFromCache_window _ _ _ _ _).2 (by decide),
   (saveToCache_getFromCache_window _ _ _ _ _).1 (by decide)⟩

/-! ## C10: `getFromCache` is total, read-only, and only ever returns a
present, parseable, unexpired entry -/

/-- C10: `getFromCache` returns the vault state unchanged (read-only: an
expired or corrupt entry stays physically in place), and its result is
`none` unless the entry at the descriptor's path exists, parsed, and is
within the expiry window, in which case the stored result is returned
as-is.  Totality — no exception escapes — is expressed by the function
being defined on every state, including corrupt and unreadable files. -/
theorem getFromCache_readonly_total (st : CacheState) (dur now : Int) (p : Json) :
    (getFromCache st dur now p).2 = st ∧
    ((getFromCache st dur now p).1 = none ∨
      ∃ r, lookupFile st.files (cachePath p) = some (.valid r) ∧
        now - r.timestamp ≤ dur * 60 * 1000 ∧
        (getFromCache st dur now p).1 = some r) := by
  rcases h : lookupFile st.files (cachePath p) with _ | f
  · exact ⟨by simp [getFromCache, h], Or.inl (by simp [getFromCache, h])⟩
  · cases f with
    | corrupt => exact ⟨by simp [getFromCache, h], Or.inl (by simp [getFromCache, h])⟩
    | unreadable => exact ⟨by simp [getFromCache, h], Or.inl (by simp [getFromCache, h])⟩
    | valid r =>
      by_cases he : now - r.timestamp > dur * 60 * 1000
      · exact ⟨by simp [getFromCache, h, he], Or.inl (by simp [getFromCache, h, he])⟩
      · exact ⟨by simp [getFromCache, h, he],
          Or.inr ⟨r, rfl, by omega, by simp [getFromCache, h, he]⟩⟩

/-! ## C7: `clearAllCache` deletes everything it can and counts deletions -/

theorem clearStep_foldl (removeFails : String → Bool) (ps : List String) :
    ∀ (fs : List (String × CacheFile)) (fe : Bool) (n : Nat),
      ps.foldl (clearStep removeFails) (⟨fe, fs⟩, n)
        = (⟨fe, fs.filter (fun e => ps.all (fun p => removeFails p || e.1 != p))⟩,
           n + (ps.filter (fun p => !removeFails p)).length) := by
  induction ps with
  | nil => intro fs fe n; simp
  | cons p ps ih =>
    intro fs fe n
    simp only [List.foldl_cons, clearStep]
    by_cases hf : removeFails p
    · rw [if_pos hf, ih]
      refine Prod.ext ?_ ?_
      · show CacheState.mk fe _ = CacheState.mk fe _
        congr 1
        refine List.filter_congr ?_
        intro e _
        simp [hf]
      · simp [List.filter_cons, hf]
    · rw [if_neg hf]
      show ps.foldl (clearStep removeFails)
          (⟨fe, fs.filter (fun e => e.1 != p)⟩, n + 1) = _
      rw [ih]
      refine Prod.ext ?_ ?_
      · show CacheState.mk fe _ = CacheState.mk fe _
        congr 1
        rw [List.filter_filter]
        refine List.filter_congr ?_
        intro e _
        simp [hf, Bool.and_comm]
      · simp [List.filter_cons, hf]
        omega

theorem clearAllLoop_spec (removeFails : String → Bool) (st : CacheState) :
    (clearAllLoop removeFails st).1.folderExists = true ∧
    (clearAllLoop removeFails st).1.files
      = st.files.filter (fun e => !(isCachePath e.1 && !removeFails e.1)) ∧
    (clearAllLoop removeFails st).2
      = (st.files.filter (fun e => isCachePath e.1 && !removeFails e.1)).length := by
  have key : ∀ e : String × CacheFile, e ∈ st.files →
      ((listFiles ⟨true, st.files⟩).all (fun p => removeFails p || e.1 != p))
        = !(isCachePath e.1 && !removeFails e.1) := by
    intro e he
    by_cases h1 : isCachePath e.1 <;> by_cases h2 : removeFails e.1
    · -- listed but its own removal fails: it survives, and the `all` holds
      simp only [h1, h2, Bool.not_true, Bool.and_false, Bool.not_false]
      rw [List.all_eq_true]
      intro p hp
      rcases List.mem_filter.mp hp with ⟨-, hcp⟩
      by_cases hpe : p = e.1
      · subst hpe; simp [h2]
      · simp [bne_iff_ne, Ne.symm hpe]
    · -- listed and removable: the `all` fails at its own path
      simp only [h1, h2, Bool.not_false, Bool.and_true, Bool.not_true]
      rw [List.all_eq_false]
      refine ⟨e.1, ?_, by simp [h2]⟩
      exact List.mem_filter.mpr ⟨List.mem_map_of_mem Prod.fst he, h1⟩
    · -- not a cache path: never listed, survives
      simp only [h1, h2, Bool.false_and, Bool.not_false]
      rw [List.all_eq_true]
      intro p hp
      rcases List.mem_filter.mp hp with ⟨-, hcp⟩
      by_cases hpe : p = e.1
      · subst hpe; exact absurd hcp (by simp [h1])
      · simp [bne_iff_ne, Ne.symm hpe]
    · simp only [h1, h2, Bool.false_and, Bool.not_false]
      rw [List.all_eq_true]
      intro p hp
      rcases List.mem_filter.mp hp with ⟨-, hcp⟩
      by_cases hpe : p = e.1
      · subst hpe; exact absurd hcp (by simp [h1])
      · simp [bne_iff_ne, Ne.symm hpe]
  have hcount : ((listFiles ⟨true, st.files⟩).filter
        (fun p => !removeFails p)).length
      = (st.files.filter (fun e => isCachePath e.1 && !removeFails e.1)).length := by
    show ((((st.files.map Prod.fst).filter isCachePath).filter
        (fun p => !removeFails p)).length) = _
    rw [List.filter_filter, List.filter_map, List.length_map]
    congr 1
    refine List.filter_congr ?_
    intro e _
    simp [Function.comp, Bool.and_comm]
  have hrun : clearAllLoop removeFails st
      = (⟨true, st.files.filter
            (fun e => (listFiles ⟨true, st.files⟩).all
              (fun p => removeFails p || e.1 != p))⟩,
         ((listFiles ⟨true, st.files⟩).filter (fun p => !removeFails p)).length) := by
    show (listFiles ⟨true, st.files⟩).foldl (clearStep removeFails)
        (⟨true, st.files⟩, 0) = _
    rw [clearStep_foldl]
    simp
  refine ⟨by rw [hrun], ?_, ?_⟩
  · rw [hrun]
    exact List.filter_congr key
  · rw [hrun]
    exact hcount

/-- C7 (amended): `clearAllCache` ensures the cache folder exists before
listing, then deletes every listed cache file whose individual removal
does not fail — a failing removal is skipped without aborting the
remaining deletions — and the count of entries it deleted is only
reported through the logged line `Cleared N cache files`: the caller
receives `()` because the TS return type is `Promise<void>`, so no count
is returned.  (The returns-the-count part of the original claim fails,
see the counterexample.) -/
theorem clearAllCache_deletes_and_logs_count (removeFails : String → Bool)
    (st : CacheState) :
    (clearAllCache removeFails st).1.folderExists = true ∧
    (clearAllCache removeFails st).1.files
      = st.files.filter (fun e => !(isCachePath e.1 && !removeFails e.1)) ∧
    (clearAllCache removeFails st).2.1
      = "Cleared "
          ++ toString
            (st.files.filter (fun e => isCachePath e.1 && !removeFails e.1)).length
          ++ " cache files" ∧
    (clearAllCache removeFails st).2.2 = () := by
  obtain ⟨h1, h2, h3⟩ := clearAllLoop_spec removeFails st
  refine ⟨h1, h2, ?_, rfl⟩
  show "Cleared " ++ toString (clearAllLoop removeFails st).2 ++ " cache files" = _
  rw [h3]

/-- C7 counterexample: `clearAllCache` does not return the count it
deleted — its TS type is `Promise<void>`.  A run that deletes two entries
and a run that deletes none hand the caller the very same value; the
counts differ only in the logged `Cleared N cache files` lines. -/
theorem clearAllCache_void_return_counterexample :
    (clearAllCache (fun _ => false)
        ⟨true, [(".data-fetcher-cache/k1.json", CacheFile.corrupt),
                (".data-fetcher-cache/k2.json", CacheFile.corrupt)]⟩).2.1
      = "Cleared 2 cache files" ∧
    (clearAllCache (fun _ => false) (⟨true, []⟩ : CacheState)).2.1
      = "Cleared 0 cache files" ∧
    (clearAllCache (fun _ => false)
        ⟨true, [(".data-fetcher-cache/k1.json", CacheFile.corrupt),
                (".data-fetcher-cache/k2.json", CacheFile.corrupt)]⟩).2.2
      = (clearAllCache (fun _ => false) (⟨true, []⟩ : CacheState)).2.2 :=
  ⟨rfl, rfl, rfl⟩

/-! ## C1: the cache key is a function of the six-field subset, but it is
not invariant under key reordering inside nested `body`/`variables`
objects -/

/-- C1 (amended): `generateCacheKey` reads only the values of `url`,
`type` (the protocol), `method`, `body`, `query` and `variables`; two
descriptors agreeing on those six values — whatever their own top-level
key insertion order, headers, or endpoint reference — yield the same key.
Repeated calls are trivially equal since the key is a pure function of the
descriptor.  (The nested-order part of the original claim fails, see the
counterexample.) -/
theorem generateCacheKey_function_of_subset (d1 d2 : Json)
    (hu : d1.getField "url" = d2.getField "url")
    (ht : d1.getField "type" = d2.getField "type")
    (hm : d1.getField "method" = d2.getField "method")
    (hb : d1.getField "body" = d2.getField "body")
    (hq : d1.getField "query" = d2.getField "query")
    (hv : d1.getField "variables" = d2.getField "variables") :
    generateCacheKey d1 = generateCacheKey d2 := by
  unfold generateCacheKey stringToHash cacheKeyEntries
  rw [hu, ht, hm, hb, hq, hv]

theorem generateCacheKey_function_of_subset_witness :
    generateCacheKey (Json.obj
        [("url", Json.str "https://x"), ("type", Json.str "rest"),
         ("headers", Json.obj [("Authorization", Json.str "token-a")])])
      = generateCacheKey (Json.obj
        [("type", Json.str "rest"), ("url", Json.str "https://x"),
         ("headers", Json.obj [("Authorization", Json.str "token-b")]),
         ("endpoint", Json.str "direct")]) :=
  generateCacheKey_function_of_subset _ _ rfl rfl rfl rfl rfl rfl

set_option maxRecDepth 100000 in
/-- C1 counterexample: two descriptors whose `body` objects are logically
equal (same key/value mapping, different key insertion order — their
canonical forms coincide) hash to different cache keys, because
`JSON.stringify` preserves the nested insertion order. -/
theorem generateCacheKey_nested_order_counterexample :
    Json.canon (Json.obj
        [("url", Json.str "https://x"), ("type", Json.str "rest"),
         ("body", Json.obj [("a", Json.num 1), ("b", Json.num 2)])])
      = Json.canon (Json.obj
        [("type", Json.str "rest"), ("url", Json.str "https://x"),
         ("body", Json.obj [("b", Json.num 2), ("a", Json.num 1)])])
    ∧ generateCacheKey (Json.obj
        [("url", Json.str "https://x"), ("type", Json.str "rest"),
         ("body", Json.obj [("a", Json.num 1), ("b", Json.num 2)])])
      ≠ generateCacheKey (Json.obj
        [("type", Json.str "rest"), ("url", Json.str "https://x"),
         ("body", Json.obj [("b", Json.num 2), ("a", Json.num 1)])]) :=
  ⟨rfl, by decide⟩

/-! ## C2: headers and endpoint reference do not enter the fingerprint,
yet the GraphQL executor puts the caller's headers on the wire -/

theorem lookup_none_not_mem (hs : List (String × Json)) (k : String)
    (h : hs.lookup k = none) : k ∉ hs.map Prod.fst := by
  induction hs with
  | nil => simp
  | cons e rest ih =>
    obtain ⟨k0, v0⟩ := e
    by_cases hk : k = k0
    · subst hk; simp [List.lookup] at h
    · have hb : (k == k0) = false := beq_false_of_ne hk
      simp only [List.lookup, hb] at h
      simpa [hk] using ih h

/-- C2: two descriptors with equal `url`, `type`, `method`, `body`,
`query` and `variables` — headers and `endpointRef` free to differ — get
the same cache key; and every caller-supplied header pair survives into
the headers object of the request the GraphQL executor hands to the
transport. -/
theorem headers_excluded_from_key_but_sent_by_graphql :
    (∀ d1 d2 : Json,
      d1.getField "url" = d2.getField "url" →
      d1.getField "type" = d2.getField "type" →
      d1.getField "method" = d2.getField "method" →
      d1.getField "body" = d2.getField "body" →
      d1.getField "query" = d2.getField "query" →
      d1.getField "variables" = d2.getField "variables" →
      generateCacheKey d1 = generateCacheKey d2) ∧
    (∀ (d : Json) (hs : List (String × Json)) (k : String) (v : Json),
      d.getField "headers" = some (Json.obj hs) →
      (hs.map Prod.fst).Nodup →
      hs.lookup k = some v →
      (graphQLRequestParams d).headers.lookup k = some v) := by
  constructor
  · intro d1 d2 hu ht hm hb hq hv
    unfold generateCacheKey stringToHash cacheKeyEntries
    rw [hu, ht, hm, hb, hq, hv]
  · intro d hs k v hh hnd hkv
    show (ctThenHeaders d).lookup k = some v
    unfold ctThenHeaders
    rw [hh]
    exact lookup_foldl_entriesInsert hs _ k v hnd hkv

theorem headers_excluded_from_key_but_sent_by_graphql_witness :
    generateCacheKey (Json.obj
        [("url", Json.str "https://x/gql"), ("type", Json.str "graphql"),
         ("query", Json.str "\x7b a \x7d"),
         ("headers", Json.obj [("Authorization", Json.str "token-1")])])
      = generateCacheKey (Json.obj
        [("url", Json.str "https://x/gql"), ("type", Json.str "graphql"),
         ("query", Json.str "\x7b a \x7d"),
         ("headers", Json.obj [("Authorization", Json.str "token-2")])]) ∧
    (graphQLRequestParams (Json.obj
        [("url", Json.str "https://x/gql"), ("type", Json.str "graphql"),
         ("query", Json.str "\x7b a \x7d"),
         ("headers", Json.obj [("Authorization", Json.str "token-1")])])).headers.lookup
      "Authorization" = some (Json.str "token-1") :=
  ⟨headers_excluded_from_key_but_sent_by_graphql.1 _ _ rfl rfl rfl rfl rfl rfl,
   headers_excluded_from_key_but_sent_by_graphql.2 _
     [("Authorization", Json.str "token-1")] _ _ rfl (by simp) rfl⟩

/-! ## C9: header merging in the executors -/

/-- C9 counterexample: in the REST executor, a caller who explicitly set
`Content-Type` to the (falsy) empty string has it overwritten with
`application/json` when a structured body is present — the code tests the
truthiness of the existing value, not the presence of the key. -/
theorem rest_content_type_falsy_overwrite_counterexample :
    (Json.obj
        [("url", Json.str "https://x"), ("type", Json.str "rest"),
         ("body", Json.obj [("a", Json.num 1)]),
         ("headers", Json.obj [("Content-Type", Json.str "")])]).getField "headers"
      = some (Json.obj [("Content-Type", Json.str "")]) ∧
    (restRequestParams (Json.obj
        [("url", Json.str "https://x"), ("type", Json.str "rest"),
         ("body", Json.obj [("a", Json.num 1)]),
         ("headers", Json.obj [("Content-Type", Json.str "")])])).headers.lookup
      "Content-Type" = some (Json.str "application/json") ∧
    Json.str "application/json" ≠ Json.str "" :=
  ⟨rfl, rfl, by simp⟩

/-- C9 (amended): caller-supplied header pairs survive into the outbound
request for every executor, except that in the REST executor a
caller-supplied `Content-Type` is kept only when its value is truthy (a
falsy value is replaced by `application/json` when a structured body
triggers injection); and the injected `Content-Type` is used when the
caller did not set that key. -/
theorem executor_headers_merge (d : Json) (hs : List (String × Json))
    (k : String) (v : Json)
    (hh : d.getField "headers" = some (Json.obj hs))
    (hnd : (hs.map Prod.fst).Nodup)
    (hkv : hs.lookup k = some v) :
    ((graphQLRequestParams d).headers.lookup k = some v) ∧
    ((grpcRequestParams d).headers.lookup k = some v) ∧
    ((rpcRequestParams d).headers.lookup k = some v) ∧
    (k ≠ "Content-Type" ∨ v.truthy →
      (restRequestParams d).headers.lookup k = some v) ∧
    (hs.lookup "Content-Type" = none →
      (ctThenHeaders d).lookup "Content-Type" = some (Json.str "application/json")) := by
  have hct : (ctThenHeaders d).lookup k = some v := by
    unfold ctThenHeaders
    rw [hh]
    exact lookup_foldl_entriesInsert hs _ k v hnd hkv
  refine ⟨hct, hct, hct, ?_, ?_⟩
  · intro hk
    show (restRequestParams d).headers.lookup k = some v
    unfold restRequestParams
    rw [hh]
    show (match d.getField "body" with
      | some b =>
        if b.truthy then
          if b.isObjLike then
            { url := (d.getField "url").getD Json.null,
              method := jsOrElse (d.getField "method") (Json.str "GET"),
              headers :=
                if Json.truthyOpt (hs.lookup "Content-Type") then hs
                else entriesInsert hs "Content-Type" (Json.str "application/json"),
              body := some (Json.str b.stringify) }
          else { url := (d.getField "url").getD Json.null,
                 method := jsOrElse (d.getField "method") (Json.str "GET"),
                 headers := hs, body := some b }
        else { url := (d.getField "url").getD Json.null,
               method := jsOrElse (d.getField "method") (Json.str "GET"),
               headers := hs }
      | none => { url := (d.getField "url").getD Json.null,
                  method := jsOrElse (d.getField "method") (Json.str "GET"),
                  headers := hs } : RequestUrlParam).headers.lookup k = some v
    rcases d.getField "body" with _ | b
    · exact hkv
    · by_cases htr : b.truthy
      · by_cases hob : b.isObjLike
        · simp only [htr, hob, if_true]
          by_cases hctv : Json.truthyOpt (hs.lookup "Content-Type")
          · simp only [hctv, if_true]
            exact hkv
          · simp only [hctv, if_false, Bool.false_eq_true]
            rcases hk with hk | hk
            · rw [lookup_entriesInsert_ne _ _ _ _ hk]
              exact hkv
            · by_cases hkc : k = "Content-Type"
              · exfalso
                apply hctv
                rw [hkc] at hkv
                simp [Json.truthyOpt, hkv, hk]
              · rw [lookup_entriesInsert_ne _ _ _ _ hkc]
                exact hkv
        · simp only [htr, hob, if_true, if_false]
          exact hkv
      · simp only [htr, if_false]
        exact hkv
  · intro hnone
    unfold ctThenHeaders
    rw [hh]
    have : "Content-Type" ∉ hs.map Prod.fst := lookup_none_not_mem hs _ hnone
    show ((hs.foldl (fun acc kv => entriesInsert acc kv.1 kv.2)
        [("Content-Type", Json.str "application/json")]).lookup "Content-Type")
      = some (Json.str "application/json")
    rw [lookup_foldl_entriesInsert_not_mem hs _ _ this]
    rfl

theorem executor_headers_merge_witness :
    ((graphQLRequestParams (Json.obj
        [("url", Json.str "u"), ("headers", Json.obj [("X-Trace", Json.str "t")])])).headers.lookup
      "X-Trace" = some (Json.str "t")) ∧
    ((restRequestParams (Json.obj
        [("url", Json.str "u"), ("headers", Json.obj [("X-Trace", Json.str "t")])])).headers.lookup
      "X-Trace" = some (Json.str "t")) ∧
    ((ctThenHeaders (Json.obj
        [("url", Json.str "u"), ("headers", Json.obj [("X-Trace", Json.str "t")])])).lookup
      "Content-Type" = some (Json.str "application/json")) := by
  have h := executor_headers_merge
    (Json.obj [("url", Json.str "u"), ("headers", Json.obj [("X-Trace", Json.str "t")])])
    [("X-Trace", Json.str "t")] "X-Trace" (Json.str "t") rfl (by simp) rfl
  exact ⟨h.1, h.2.2.2.1 (Or.inl (by simp)), h.2.2.2.2 rfl⟩

/-! ## C4: `executeQuery` never raises and shapes failures uniformly -/

theorem executeRestQuery_error_nonempty
    (transport : RequestUrlParam → Except String Response) (params : Json)
    (m : String)
    (htr : ∀ rp m', transport rp = .error m' → m' ≠ "")
    (hresp : ∀ rp resp m', transport rp = .ok resp → resp.jsonBody = .error m' → m' ≠ "")
    (h : executeRestQuery transport params = .error m) : m ≠ "" := by
  unfold executeRestQuery at h
  split at h
  · cases h; decide
  · rcases he : transport (restRequestParams params) with m' | resp
    · simp only [he] at h
      cases h
      exact htr _ _ he
    · simp only [he] at h
      split at h
      · split at h
        · exact hresp _ _ _ he h
        · cases h
      · cases h

theorem executeGraphQLQuery_error_nonempty
    (transport : RequestUrlParam → Except String Response) (params : Json)
    (m : String)
    (htr : ∀ rp m', transport rp = .error m' → m' ≠ "")
    (hresp : ∀ rp resp m', transport rp = .ok resp → resp.jsonBody = .error m' → m' ≠ "")
    (h : executeGraphQLQuery transport params = .error m) : m ≠ "" := by
  unfold executeGraphQLQuery at h
  split at h
  · cases h; decide
  · split at h
    · cases h; decide
    · rcases he : transport (graphQLRequestParams params) with m' | resp
      · simp only [he] at h
        cases h
        exact htr _ _ he
      · simp only [he] at h
        exact hresp _ _ _ he h

theorem executeGrpcQuery_error_nonempty
    (transport : RequestUrlParam → Except String Response) (params : Json)
    (m : String)
    (htr : ∀ rp m', transport rp = .error m' → m' ≠ "")
    (hresp : ∀ rp resp m', transport rp = .ok resp → resp.jsonBody = .error m' → m' ≠ "")
    (h : executeGrpcQuery transport params = .error m) : m ≠ "" := by
  unfold executeGrpcQuery at h
  split at h
  · cases h; decide
  · rcases he : transport (grpcRequestParams params) with m' | resp
    · simp only [he] at h
      cases h
      exact htr _ _ he
    · simp only [he] at h
      exact hresp _ _ _ he h

theorem executeRpcQuery_error_nonempty
    (transport : RequestUrlParam → Except String Response) (params : Json)
    (m : String)
    (htr : ∀ rp m', transport rp = .error m' → m' ≠ "")
    (hresp : ∀ rp resp m', transport rp = .ok resp → resp.jsonBody = .error m' → m' ≠ "")
    (h : executeRpcQuery transport params = .error m) : m ≠ "" := by
  unfold executeRpcQuery at h
  split at h
  · cases h; decide
  · rcases he : transport (rpcRequestParams params) with m' | resp
    · simp only [he] at h
      cases h
      exact htr _ _ he
    · simp only [he] at h
      exact hresp _ _ _ he h

/-- C4: provided the transport primitive reports failures with non-empty
messages (both on a failed request and on a `response.json` parse), the
dispatcher is total: it always returns a Result whose `error` is either
absent (success) or a non-empty message with `data = null` — for
transport failures, missing protocol-required fields (`url`, and `query`
for GraphQL), and unsupported protocols such as `"soap"` alike. -/
theorem executeQuery_never_raises
    (transport : RequestUrlParam → Except String Response) (now : Int)
    (params : Json)
    (htr : ∀ rp m, transport rp = .error m → m ≠ "")
    (hresp : ∀ rp resp m, transport rp = .ok resp → resp.jsonBody = .error m → m ≠ "") :
    ((executeQuery transport now params).error = none ∨
      ((executeQuery transport now params).data = Json.null ∧
        ∃ m, (executeQuery transport now params).error = some m ∧ m ≠ "")) ∧
    (params.getField "type" = some (Json.str "soap") →
      (executeQuery transport now params).data = Json.null ∧
      (executeQuery transport now params).error
        = some "Unsupported query type: soap") := by
  have hdisp : ∀ m, (match params.getField "type" with
      | some (Json.str "rest") => executeRestQuery transport params
      | some (Json.str "graphql") => executeGraphQLQuery transport params
      | some (Json.str "grpc") => executeGrpcQuery transport params
      | some (Json.str "rpc") => executeRpcQuery transport params
      | t => .error ("Unsupported query type: " ++ jsToStringOpt t))
        = Except.error m → m ≠ "" := by
    intro m hm
    split at hm
    · exact executeRestQuery_error_nonempty _ _ _ htr hresp hm
    · exact executeGraphQLQuery_error_nonempty _ _ _ htr hresp hm
    · exact executeGrpcQuery_error_nonempty _ _ _ htr hresp hm
    · exact executeRpcQuery_error_nonempty _ _ _ htr hresp hm
    · cases hm
      intro hc
      have hlen := congrArg String.length hc
      rw [String.length_append] at hlen
      simp at hlen
      exact absurd hlen.1 (by decide)
  constructor
  · rcases hd : (match params.getField "type" with
      | some (Json.str "rest") => executeRestQuery transport params
      | some (Json.str "graphql") => executeGraphQLQuery transport params
      | some (Json.str "grpc") => executeGrpcQuery transport params
      | some (Json.str "rpc") => executeRpcQuery transport params
      | t => .error ("Unsupported query type: " ++ jsToStringOpt t)) with m | d
    · right
      exact ⟨by simp [executeQuery, hd], m, by simp [executeQuery, hd], hdisp m hd⟩
    · left
      simp [executeQuery, hd]
  · intro hty
    constructor <;> simp [executeQuery, hty, jsToStringOpt, Json.jsToString]

theorem executeQuery_never_raises_witness :
    (executeQuery (fun _ => .error "network unreachable") 0
        (Json.obj [("type", Json.str "soap")])).data = Json.null ∧
    (executeQuery (fun _ => .error "network unreachable") 0
        (Json.obj [("type", Json.str "soap")])).error
      = some "Unsupported query type: soap" := by
  have h := executeQuery_never_raises (fun _ => Except.error "network unreachable") 0
    (Json.obj [("type", Json.str "soap")])
    (fun rp m hm => by cases hm; decide)
    (fun rp resp m hm => by cases hm)
  exact h.2 rfl

/-! ## C5: reference-mode headers are the endpoint's headers, untouched -/

theorem handleAssignment_headers (key value : String) (q q2 : Json)
    (h : handleAssignment key value q = .ok q2) :
    q2.getField "headers" = q.getField "headers" := by
  unfold handleAssignment at h
  split at h
  · cases h
    exact getField_objInsert_ne _ _ _ _ (by decide)
  · split at h
    · cases h
      exact getField_objInsert_ne _ _ _ _ (by decide)
    · split at h
      · split at h
        · cases h
          exact getField_objInsert_ne _ _ _ _ (by decide)
        · cases h
      · cases h
        rfl

theorem processLines_headers (lines : List (List Char)) :
    ∀ (fuel i : Nat) (q q2 : Json),
      processLines lines fuel i q = .ok q2 →
      q2.getField "headers" = q.getField "headers" := by
  intro fuel
  induction fuel with
  | zero =>
    intro i q q2 h
    cases h
    rfl
  | succ fuel ih =>
    intro i q q2 h
    unfold processLines at h
    split at h
    · cases h; rfl
    · split at h
      · exact ih _ _ _ h
      · split at h
        · split at h
          · split at h
            · rename_i q3 hq3
              rw [ih _ _ _ h, handleAssignment_headers _ _ _ _ hq3]
            · cases h
          · split at h
            · rename_i q3 hq3
              rw [ih _ _ _ h, handleAssignment_headers _ _ _ _ hq3]
            · cases h
        · exact ih _ _ _ h

/-- C5 (amended): a reference-mode parse that succeeds carries exactly a
copy of the resolved endpoint's headers: the remaining `key: value` lines
can set `body`, `query` and `variables` but there is no header-override
mechanism, so every endpoint header survives with its original value.
(The merge-with-overrides part of the original claim fails, see the
counterexample: a `headers:` line is silently ignored.) -/
theorem parse_reference_headers_copy (source : String)
    (settings : DataFetcherSettings) (q : Json)
    (hs : refStarts source = true)
    (hok : parseDataQuery source settings = .ok q) :
    ∃ ep, settings.endpoints.find? (fun e => e.aliasName == refAlias source)
        = some ep
      ∧ q.getField "headers" = some (headersToJson ep.headers) := by
  unfold parseDataQuery at hok
  rw [if_pos hs] at hok
  rcases hf : settings.endpoints.find? (fun e => e.aliasName == refAlias source)
      with _ | ep
  · have hpr : parseReference source settings
        = .error ("Endpoint alias \"" ++ refAlias source ++ "\" not found in settings") := by
      unfold parseReference
      rw [hf]
    rw [hpr] at hok
    simp at hok
  · have hpr : parseReference source settings
        = processLines (refLines source) ((refLines source).length + 1) 1
            (Json.obj
              [("endpoint", Json.str (refAlias source)), ("type", Json.str ep.type),
               ("url", Json.str ep.url), ("method", Json.str ep.method),
               ("headers", headersToJson ep.headers)]) := by
      unfold parseReference
      rw [hf]
    rw [hpr] at hok
    rcases hp : processLines (refLines source) ((refLines source).length + 1) 1
        (Json.obj
          [("endpoint", Json.str (refAlias source)), ("type", Json.str ep.type),
           ("url", Json.str ep.url), ("method", Json.str ep.method),
           ("headers", headersToJson ep.headers)]) with m | q0
    · rw [hp] at hok
      simp at hok
    · rw [hp] at hok
      simp at hok
      subst hok
      refine ⟨ep, hf, ?_⟩
      rw [processLines_headers _ _ _ _ _ hp]
      rfl

theorem parse_reference_headers_copy_witness :
    ∃ ep, (⟨60, [⟨"w", "https://x", "GET", "rest", [("A", "1")], none, none⟩]⟩
        : DataFetcherSettings).endpoints.find?
        (fun e => e.aliasName == refAlias "@w\nbody: 7") = some ep
      ∧ (Json.obj
          [("endpoint", Json.str "w"), ("type", Json.str "rest"),
           ("url", Json.str "https://x"), ("method", Json.str "GET"),
           ("headers", Json.obj [("A", Json.str "1")]),
           ("body", Json.num 7)]).getField "headers"
        = some (headersToJson ep.headers) :=
  parse_reference_headers_copy "@w\nbody: 7"
    ⟨60, [⟨"w", "https://x", "GET", "rest", [("A", "1")], none, none⟩]⟩ _ rfl rfl

/-- C5 counterexample: a `headers:` override line in the query block has
no effect — the parsed descriptor keeps the endpoint's `Auth: a1`, not the
block's `Auth: b` the claim's precedence rule would demand. -/
theorem parse_reference_header_override_counterexample :
    parseDataQuery "@a\nheaders: \x7b\"Auth\":\"b\"\x7d"
        ⟨60, [⟨"a", "https://x", "GET", "rest", [("Auth", "a1")], none, none⟩]⟩
      = .ok (Json.obj
          [("endpoint", Json.str "a"), ("type", Json.str "rest"),
           ("url", Json.str "https://x"), ("method", Json.str "GET"),
           ("headers", Json.obj [("Auth", Json.str "a1")])]) ∧
    some (Json.obj [("Auth", Json.str "a1")])
      ≠ some (Json.obj [("Auth", Json.str "b")]) :=
  ⟨rfl, by simp⟩

/-! ## C6: direct-mode parsing -/

theorem jsGetProp_eq (v : Json) (p : String) :
    jsGetProp v p
      = if v.isNull then .error (cannotReadNull p) else .ok (v.getField p) := by
  cases v <;> rfl

/-- C6 (amended): a direct-mode parse fails exactly when the source is not
parseable, when the parsed value is `null` (the `type` read throws), or
when the `type` or `url` field is absent or falsy — an empty-string `url`
counts as missing; on success the Descriptor is the parsed object spread
over `{endpoint: "direct"}`, so `endpointRef` is `"direct"` unless the
payload itself carries an `endpoint` key, which overrides it (see the
counterexample). -/
theorem parse_direct_characterization (source : String)
    (settings : DataFetcherSettings) (hd : refStarts source = false) :
    match jsonParse source with
    | .error m =>
      parseDataQuery source settings
        = .error ("Failed to parse query: " ++ ("Invalid query format: " ++ m))
    | .ok v =>
      if v.isNull then
        parseDataQuery source settings
          = .error ("Failed to parse query: "
              ++ ("Invalid query format: " ++ cannotReadNull "type"))
      else if ¬ Json.truthyOpt (v.getField "type") then
        parseDataQuery source settings
          = .error ("Failed to parse query: "
              ++ "Invalid query format: Query type is required")
      else if ¬ Json.truthyOpt (v.getField "url") then
        parseDataQuery source settings
          = .error ("Failed to parse query: "
              ++ "Invalid query format: URL is required")
      else
        parseDataQuery source settings
          = .ok (jsSpread [("endpoint", Json.str "direct")] v) := by
  have hpd : parseDataQuery source settings
      = match parseDirect source with
        | .ok q => .ok q
        | .error m => .error ("Failed to parse query: " ++ m) := by
    unfold parseDataQuery
    rw [hd]
    simp only [Bool.false_eq_true, if_false]
  rcases hp : jsonParse source with m | v
  · simp only [hp]
    rw [hpd]
    have hdir : parseDirect source = .error ("Invalid query format: " ++ m) := by
      unfold parseDirect
      rw [hp]
    rw [hdir]
  · simp only [hp]
    have hdir : parseDirect source
        = (if v.isNull then
             Except.error ("Invalid query format: " ++ cannotReadNull "type")
           else if ¬ Json.truthyOpt (v.getField "type") then
             Except.error "Invalid query format: Query type is required"
           else if ¬ Json.truthyOpt (v.getField "url") then
             Except.error "Invalid query format: URL is required"
           else Except.ok (jsSpread [("endpoint", Json.str "direct")] v)) := by
      unfold parseDirect
      simp only [hp]
      rw [jsGetProp_eq, jsGetProp_eq]
      rcases hn : v.isNull <;> rcases h1 : Json.truthyOpt (v.getField "type") <;>
        rcases h2 : Json.truthyOpt (v.getField "url") <;> simp [hn, h1, h2]
    rcases hn : v.isNull <;> rcases h1 : Json.truthyOpt (v.getField "type") <;>
      rcases h2 : Json.truthyOpt (v.getField "url") <;>
        simp [hpd, hdir, hn, h1, h2]

theorem parse_direct_characterization_witness :
    parseDataQuery "\x7b\"type\":\"rest\",\"url\":\"https://x\"\x7d" ⟨60, []⟩
      = .ok (jsSpread [("endpoint", Json.str "direct")]
          (Json.obj [("type", Json.str "rest"), ("url", Json.str "https://x")])) := by
  have h := parse_direct_characterization
    "\x7b\"type\":\"rest\",\"url\":\"https://x\"\x7d" ⟨60, []⟩ rfl
  exact h

/-- C6 counterexample: a direct-mode payload carrying its own `endpoint`
key overrides the forced `"direct"` — the spread `{endpoint: 'direct',
...queryObj}` puts the payload's entries after the default. -/
theorem parse_direct_endpoint_override_counterexample :
    parseDataQuery "\x7b\"type\":\"rest\",\"url\":\"https://x\",\"endpoint\":\"e\"\x7d"
        ⟨60, []⟩
      = .ok (Json.obj
          [("endpoint", Json.str "e"), ("type", Json.str "rest"),
           ("url", Json.str "https://x")]) ∧
    (Json.obj
        [("endpoint", Json.str "e"), ("type", Json.str "rest"),
         ("url", Json.str "https://x")]).getField "endpoint" = some (Json.str "e") ∧
    some (Json.str "e") ≠ some (Json.str "direct") :=
  ⟨rfl, rfl, by simp⟩

/-! ## C8: `body:` falls back to the raw string, `variables:` must parse -/

/-- C8: a `body: value` line never fails — an unparseable value is stored
as the literal raw string, a parseable one as the parsed structure — while
a `variables: value` line whose value does not parse aborts the whole
parse with the variables `ParseError`; shown both on the line-assignment
semantics for every value and end-to-end on concrete sources (the message
surfaces wrapped by the outer catch). -/
theorem body_fallback_and_variables_strict :
    (∀ (value : String) (kvs : List (String × Json)),
      handleAssignment "body" value (Json.obj kvs)
        = .ok ((Json.obj kvs).objInsert "body"
            (match jsonParse value with
             | .ok v => v
             | .error _ => Json.str value)) ∧
      ((Json.obj kvs).objInsert "body"
          (match jsonParse value with
           | .ok v => v
           | .error _ => Json.str value)).getField "body"
        = some (match jsonParse value with
                | .ok v => v
                | .error _ => Json.str value)) ∧
    (∀ (value : String) (q : Json) (m : String), jsonParse value = .error m →
      handleAssignment "variables" value q = .error "Variables must be valid JSON") ∧
    parseDataQuery "@a\nbody: notjson"
        ⟨60, [⟨"a", "https://x", "GET", "rest", [], none, none⟩]⟩
      = .ok (Json.obj
          [("endpoint", Json.str "a"), ("type", Json.str "rest"),
           ("url", Json.str "https://x"), ("method", Json.str "GET"),
           ("headers", Json.obj []), ("body", Json.str "notjson")]) ∧
    parseDataQuery "@a\nvariables: notjson"
        ⟨60, [⟨"a", "https://x", "GET", "rest", [], none, none⟩]⟩
      = .error "Failed to parse query: Variables must be valid JSON" := by
  refine ⟨?_, ?_, rfl, rfl⟩
  · intro value kvs
    exact ⟨rfl, getField_objInsert_self _ _ _⟩
  · intro value q m hm
    unfold handleAssignment
    simp [hm]

theorem body_fallback_and_variables_strict_witness :
    handleAssignment "variables" "notjson" (Json.obj [])
      = .error "Variables must be valid JSON" ∧
    handleAssignment "body" "notjson" (Json.obj [])
      = .ok ((Json.obj []).objInsert "body" (Json.str "notjson")) :=
  ⟨body_fallback_and_variables_strict.2.1 "notjson" (Json.obj []) _ rfl,
   (body_fallback_and_variables_strict.1 "notjson" []).1⟩
